import Mathlib

/-!
Verification of the HTTP CONNECT proxy-tunnel handshake of this repository.

The development embeds, as executable Lean functions over lists of
characters, the two source functions:

* `mosquitto_proxy_set` (src/lib/mosquitto_proxy.c, the second definition at
  lines 245-285, which the first, commentary-laden draft above it duplicates):
  validation and installation of the proxy configuration.
* `net__proxy_connect` (src/lib/net_mosq_proxy.c, lines 26-140): request
  formatting, the poll/read accumulation loop and status-line validation.

The environment (poll results, read results, allocation and write success)
is an explicit oracle: a list of `PollEvent`s plus booleans.  The embedding
also records the observable traces the claims talk about: the buffers passed
to the socket write, the timeout argument of every poll call and the count
argument of every read call.  C strings are modelled as `List Char`; the
view `strstr`/`strncmp` have of the NUL-terminated response buffer is
`cstr` (the bytes before the first NUL).
-/

namespace MosqProxy

/-- Mosquitto error code for success. -/
def MOSQ_ERR_SUCCESS : Nat := 0

/-- Mosquitto error code for an allocation failure. -/
def MOSQ_ERR_NOMEM : Nat := 1

/-- Mosquitto error code for invalid arguments. -/
def MOSQ_ERR_INVAL : Nat := 3

/-- Mosquitto error code for a proxy failure (value as in mosquitto.h). -/
def MOSQ_ERR_PROXY : Nat := 16

/-- Decimal digit to character, as produced by printf-style rendering. -/
def digitChar (d : Nat) : Char :=
  match d with
  | 0 => '0' | 1 => '1' | 2 => '2' | 3 => '3' | 4 => '4'
  | 5 => '5' | 6 => '6' | 7 => '7' | 8 => '8' | 9 => '9'
  | _ => '*'

/-- Fuel-driven decimal rendering of a natural number (most significant digit
first), mirroring the digit loop of a C integer formatter. -/
def natDigitsCore : Nat → Nat → List Char → List Char
  | 0, _, acc => acc
  | fuel+1, n, acc =>
    if n < 10 then digitChar n :: acc
    else natDigitsCore fuel (n / 10) (digitChar (n % 10) :: acc)

/-- Decimal rendering of a natural number. -/
def natDigits (n : Nat) : List Char := natDigitsCore (n+1) n []

/-- Rendering of a C int by snprintf %d. -/
def intStr : Int → List Char
  | Int.ofNat n => natDigits n
  | Int.negSucc n => '-' :: natDigits (n+1)

/-- The proxy field of struct mosquitto: host, port and the optional
pre-formatted authorization header line (NULL pointers are `none`). -/
structure Proxy where
  host : Option (List Char)
  port : Int
  auth_header : Option (List Char)
deriving DecidableEq

/-- Embedding of mosquitto_proxy_set (src/lib/mosquitto_proxy.c:245-285).
`prior` is the configuration held in `mosq->proxy` before the call; `host`
and `auth_value` are `none` when the C caller passes NULL; `hostAllocOk`
and `authAllocOk` are the oracle for the two allocations (`mosquitto__strdup`
of the host and `mosquitto__malloc` of the header line).  Returns the C
return value paired with the configuration left in `mosq->proxy`. -/
def mosquitto_proxy_set (prior : Proxy) (host : Option (List Char)) (port : Int)
    (auth_value : Option (List Char)) (hostAllocOk : Bool) (authAllocOk : Bool) :
    Nat × Proxy :=
  match host with
  | none => (MOSQ_ERR_INVAL, prior)
  | some h =>
    if port ≤ 0 ∨ 65535 < port then (MOSQ_ERR_INVAL, prior)
    else
      -- lines 251-258: clear host and auth_header (port is left as it was)
      if hostAllocOk = false then (MOSQ_ERR_NOMEM, ⟨none, prior.port, none⟩)
      else
        -- line 264: the new port is installed before the auth allocation
        match auth_value with
        | some v =>
          if 0 < v.length then
            if authAllocOk = false then (MOSQ_ERR_NOMEM, ⟨none, port, none⟩)
            else
              (MOSQ_ERR_SUCCESS,
               ⟨some h, port, some ("Proxy-Authorization: ".toList ++ v ++ "\r\n".toList)⟩)
          else (MOSQ_ERR_SUCCESS, ⟨some h, port, none⟩)
        | none => (MOSQ_ERR_SUCCESS, ⟨some h, port, none⟩)

/-- One iteration's worth of environment behaviour for the accumulation loop
of net__proxy_connect: what poll reports and, when POLLIN is reported, what
net__read returns (`readyData bytes` is a read returning those bytes,
`readyClosed` a read returning 0, `readyErr` a read error, `readyOther`
poll reporting an event without POLLIN). -/
inductive PollEvent where
  | pollErr
  | pollTimeout
  | readyOther
  | readyClosed
  | readyErr
  | readyData (bytes : List Char)
deriving DecidableEq

/-- The distinct exit points of net__proxy_connect, one per return-with-log
branch of the source (the returned int does not distinguish them). -/
inductive Cause where
  | success
  | nomem
  | requestTooLarge
  | writeError
  | pollError
  | timeout
  | connectionClosed
  | readError
  | socketError
  | responseTooLarge
  | proxyRejected
deriving DecidableEq, Inhabited

/-- How the accumulation loop ended: an early return (`failure`), reaching
the post-loop code (`finished`, by terminator break or by a full buffer), or
the model artefact of the event oracle running out mid-loop. -/
inductive LoopOut where
  | failure (c : Cause)
  | finished
  | outOfEvents
deriving DecidableEq, Inhabited

/-- Result of the accumulation loop: its exit, the accumulated response
bytes (the first `response.length` cells of the buffer, i.e. the cursor
total_read), and the traces of poll-timeout and read-count arguments. -/
structure LoopResult where
  out : LoopOut
  response : List Char
  polls : List Nat
  reads : List Nat
deriving DecidableEq, Inhabited

/-- Capacity of the heap response buffer (net_mosq_proxy.c:35). -/
def responseSize : Nat := 2048

/-- Timeout handed to every poll call (net_mosq_proxy.c:36). -/
def connect_timeout_ms : Nat := 10000

/-- The header-block terminator scanned for by strstr (net_mosq_proxy.c:34). -/
def terminator : List Char := "\r\n\r\n".toList

/-- The 12-byte status prefix accepted by strncmp (net_mosq_proxy.c:123). -/
def statusPat11 : List Char := "HTTP/1.1 200".toList

/-- The alternative 12-byte status prefix (net_mosq_proxy.c:123). -/
def statusPat10 : List Char := "HTTP/1.0 200".toList

/-- The view C string functions have of a buffer: the bytes before the first
NUL.  The loop NUL-terminates the buffer at the cursor after every read, so
strstr and strncmp see exactly the accumulated bytes up to any embedded NUL. -/
def cstr (l : List Char) : List Char := l.takeWhile (fun c => c != Char.ofNat 0)

/-- Embedding of the while loop of net__proxy_connect
(net_mosq_proxy.c:75-114).  `acc` is the content of the response buffer
below the cursor.  Each iteration first checks the guard
total_read < response_size-1, then consumes one `PollEvent`; on a POLLIN
event the read delivers at most response_size-1-total_read bytes (the count
argument passed to net__read), the cursor advances, the buffer is
NUL-terminated at the cursor, and strstr scans for the terminator. -/
def proxyLoop : List PollEvent → List Char → LoopResult
  | events, acc =>
    if acc.length < responseSize - 1 then
      match events with
      | [] => ⟨.outOfEvents, acc, [], []⟩
      | e :: rest =>
        match e with
        | .pollErr => ⟨.failure .pollError, acc, [connect_timeout_ms], []⟩
        | .pollTimeout => ⟨.failure .timeout, acc, [connect_timeout_ms], []⟩
        | .readyOther => ⟨.failure .socketError, acc, [connect_timeout_ms], []⟩
        | .readyClosed =>
          ⟨.failure .connectionClosed, acc, [connect_timeout_ms],
           [responseSize - 1 - acc.length]⟩
        | .readyErr =>
          ⟨.failure .readError, acc, [connect_timeout_ms],
           [responseSize - 1 - acc.length]⟩
        | .readyData bytes =>
          let count := responseSize - 1 - acc.length
          let chunk := bytes.take count
          if chunk.length = 0 then
            ⟨.failure .connectionClosed, acc, [connect_timeout_ms], [count]⟩
          else
            let acc2 := acc ++ chunk
            if terminator <:+: cstr acc2 then
              ⟨.finished, acc2, [connect_timeout_ms], [count]⟩
            else
              let r := proxyLoop rest acc2
              ⟨r.out, r.response, connect_timeout_ms :: r.polls, count :: r.reads⟩
    else
      ⟨.finished, acc, [], []⟩

/-- The CONNECT request formatted by the two snprintf calls of
net__proxy_connect (net_mosq_proxy.c:43-57), untruncated (snprintf's return
value is the untruncated length, which is what the size check inspects). -/
def buildRequest (auth_header : Option (List Char)) (dest_host : List Char)
    (dest_port : Int) : List Char :=
  match auth_header with
  | some a =>
    "CONNECT ".toList ++ dest_host ++ [':'] ++ intStr dest_port ++
    " HTTP/1.1\r\n".toList ++ "Host: ".toList ++ dest_host ++ [':'] ++
    intStr dest_port ++ "\r\n".toList ++ a ++ "\r\n".toList
  | none =>
    "CONNECT ".toList ++ dest_host ++ [':'] ++ intStr dest_port ++
    " HTTP/1.1\r\n".toList ++ "Host: ".toList ++ dest_host ++ [':'] ++
    intStr dest_port ++ "\r\n".toList ++ "\r\n".toList

/-- Capacity of the stack request buffer (net_mosq_proxy.c:28). -/
def requestSize : Nat := 1024

/-- The outcome of one net__proxy_connect call: the returned int, the exit
point taken, the final accumulated response bytes, the buffers passed to
net__write, and the poll and read argument traces. -/
structure ConnectResult where
  rc : Nat
  cause : Cause
  response : List Char
  writes : List (List Char)
  polls : List Nat
  reads : List Nat
deriving DecidableEq, Inhabited

/-- Embedding of net__proxy_connect (src/lib/net_mosq_proxy.c:26-140).
`auth_header` is `mosq->proxy.auth_header`; `respAllocOk` is the oracle for
the response-buffer malloc, `writeOk` for net__write transferring exactly
the request length; `events` drives the loop.  Returns `none` only in the
model artefact case of the oracle running out mid-loop. -/
def net__proxy_connect (auth_header : Option (List Char)) (dest_host : List Char)
    (dest_port : Int) (respAllocOk : Bool) (writeOk : Bool)
    (events : List PollEvent) : Option ConnectResult :=
  if respAllocOk = false then
    some ⟨MOSQ_ERR_NOMEM, .nomem, [], [], [], []⟩
  else if (buildRequest auth_header dest_host dest_port).length = 0 ∨
      requestSize ≤ (buildRequest auth_header dest_host dest_port).length then
    some ⟨MOSQ_ERR_PROXY, .requestTooLarge, [], [], [], []⟩
  else if writeOk = false then
    some ⟨MOSQ_ERR_PROXY, .writeError, [],
          [buildRequest auth_header dest_host dest_port], [], []⟩
  else
    match (proxyLoop events []).out with
    | .outOfEvents => none
    | .failure c =>
      some ⟨MOSQ_ERR_PROXY, c, (proxyLoop events []).response,
            [buildRequest auth_header dest_host dest_port],
            (proxyLoop events []).polls, (proxyLoop events []).reads⟩
    | .finished =>
      if terminator <:+: cstr (proxyLoop events []).response then
        if statusPat11 <+: cstr (proxyLoop events []).response ∨
            statusPat10 <+: cstr (proxyLoop events []).response then
          some ⟨MOSQ_ERR_SUCCESS, .success, (proxyLoop events []).response,
                [buildRequest auth_header dest_host dest_port],
                (proxyLoop events []).polls, (proxyLoop events []).reads⟩
        else
          some ⟨MOSQ_ERR_PROXY, .proxyRejected, (proxyLoop events []).response,
                [buildRequest auth_header dest_host dest_port],
                (proxyLoop events []).polls, (proxyLoop events []).reads⟩
      else
        some ⟨MOSQ_ERR_PROXY, .responseTooLarge, (proxyLoop events []).response,
              [buildRequest auth_header dest_host dest_port],
              (proxyLoop events []).polls, (proxyLoop events []).reads⟩

/-- Run ending in a poll timeout, for the C9 counterexample. -/
def c9runA : ConnectResult :=
  (net__proxy_connect none "h".toList 1 true true [PollEvent.pollTimeout]).get!

/-- Run ending in a rejected status line, for the C9 counterexample. -/
def c9runB : ConnectResult :=
  (net__proxy_connect none "h".toList 1 true true
    [PollEvent.readyData "HTTP/1.1 407 Proxy Authentication Required\r\n\r\n".toList]).get!

/-- Destination host long enough to overflow the request buffer. -/
def c5host : List Char := List.replicate 1100 'a'

/-- Events of the concrete C2 witness run. -/
def c2events : List PollEvent :=
  [PollEvent.readyData "HTTP/1.1 200 Connection Established\r\n\r\n".toList]

/-- Result of the concrete C2 witness run. -/
def c2run : ConnectResult :=
  (net__proxy_connect none "h".toList 1 true true c2events).get!

/-- Fragments of the spec's own example, split mid-status-line. -/
def c1chunks : List (List Char) :=
  ["HTTP/1.1 20".toList, "0 OK\r\n\r\n".toList]

/-- A Proxy-Authorization header line start, as it would occur inside the
header block (preceded by a line break). -/
def authLinePat : List Char := "\r\nProxy-Authorization:".toList

/-! Step equations for the accumulation loop. -/

theorem proxyLoop_full {events : List PollEvent} {acc : List Char}
    (h : ¬ acc.length < responseSize - 1) :
    proxyLoop events acc = ⟨.finished, acc, [], []⟩ := by
  cases events <;> simp [proxyLoop, h]

theorem proxyLoop_nil {acc : List Char} (h : acc.length < responseSize - 1) :
    proxyLoop [] acc = ⟨.outOfEvents, acc, [], []⟩ := by
  simp [proxyLoop, h]

theorem proxyLoop_pollErr {rest : List PollEvent} {acc : List Char}
    (h : acc.length < responseSize - 1) :
    proxyLoop (.pollErr :: rest) acc =
      ⟨.failure .pollError, acc, [connect_timeout_ms], []⟩ := by
  simp [proxyLoop, h]

theorem proxyLoop_pollTimeout {rest : List PollEvent} {acc : List Char}
    (h : acc.length < responseSize - 1) :
    proxyLoop (.pollTimeout :: rest) acc =
      ⟨.failure .timeout, acc, [connect_timeout_ms], []⟩ := by
  simp [proxyLoop, h]

theorem proxyLoop_readyOther {rest : List PollEvent} {acc : List Char}
    (h : acc.length < responseSize - 1) :
    proxyLoop (.readyOther :: rest) acc =
      ⟨.failure .socketError, acc, [connect_timeout_ms], []⟩ := by
  simp [proxyLoop, h]

theorem proxyLoop_readyClosed {rest : List PollEvent} {acc : List Char}
    (h : acc.length < responseSize - 1) :
    proxyLoop (.readyClosed :: rest) acc =
      ⟨.failure .connectionClosed, acc, [connect_timeout_ms],
       [responseSize - 1 - acc.length]⟩ := by
  simp [proxyLoop, h]

theorem proxyLoop_readyErr {rest : List PollEvent} {acc : List Char}
    (h : acc.length < responseSize - 1) :
    proxyLoop (.readyErr :: rest) acc =
      ⟨.failure .readError, acc, [connect_timeout_ms],
       [responseSize - 1 - acc.length]⟩ := by
  simp [proxyLoop, h]

theorem proxyLoop_readyData_empty {bytes : List Char} {rest : List PollEvent}
    {acc : List Char} (h : acc.length < responseSize - 1)
    (hc : (bytes.take (responseSize - 1 - acc.length)).length = 0) :
    proxyLoop (.readyData bytes :: rest) acc =
      ⟨.failure .connectionClosed, acc, [connect_timeout_ms],
       [responseSize - 1 - acc.length]⟩ := by
  have hd : responseSize - 1 - acc.length = 0 ∨ bytes = [] := by simpa using hc
  simp [proxyLoop, h, hd]

theorem proxyLoop_readyData_break {bytes : List Char} {rest : List PollEvent}
    {acc : List Char} (h : acc.length < responseSize - 1)
    (hc : ¬ (bytes.take (responseSize - 1 - acc.length)).length = 0)
    (ht : terminator <:+: cstr (acc ++ bytes.take (responseSize - 1 - acc.length))) :
    proxyLoop (.readyData bytes :: rest) acc =
      ⟨.finished, acc ++ bytes.take (responseSize - 1 - acc.length),
       [connect_timeout_ms], [responseSize - 1 - acc.length]⟩ := by
  have hd : ¬ (responseSize - 1 - acc.length = 0 ∨ bytes = []) := by simpa using hc
  simp [proxyLoop, h, hd, ht]

theorem proxyLoop_readyData_step {bytes : List Char} {rest : List PollEvent}
    {acc : List Char} (h : acc.length < responseSize - 1)
    (hc : ¬ (bytes.take (responseSize - 1 - acc.length)).length = 0)
    (ht : ¬ terminator <:+: cstr (acc ++ bytes.take (responseSize - 1 - acc.length))) :
    proxyLoop (.readyData bytes :: rest) acc =
      ⟨(proxyLoop rest (acc ++ bytes.take (responseSize - 1 - acc.length))).out,
       (proxyLoop rest (acc ++ bytes.take (responseSize - 1 - acc.length))).response,
       connect_timeout_ms :: (proxyLoop rest (acc ++ bytes.take (responseSize - 1 - acc.length))).polls,
       (responseSize - 1 - acc.length) :: (proxyLoop rest (acc ++ bytes.take (responseSize - 1 - acc.length))).reads⟩ := by
  have hd : ¬ (responseSize - 1 - acc.length = 0 ∨ bytes = []) := by simpa using hc
  simp [proxyLoop, h, hd, ht]

/-! Invariants of the accumulation loop. -/

theorem loop_polls_const (events : List PollEvent) (acc : List Char) :
    ∀ t ∈ (proxyLoop events acc).polls, t = connect_timeout_ms := by
  induction events generalizing acc with
  | nil =>
    intro t ht
    by_cases hg : acc.length < responseSize - 1
    · rw [proxyLoop_nil hg] at ht; simp at ht
    · rw [proxyLoop_full hg] at ht; simp at ht
  | cons e rest ih =>
    intro t ht
    by_cases hg : acc.length < responseSize - 1
    · cases e with
      | pollErr => rw [proxyLoop_pollErr hg] at ht; simpa using ht
      | pollTimeout => rw [proxyLoop_pollTimeout hg] at ht; simpa using ht
      | readyOther => rw [proxyLoop_readyOther hg] at ht; simpa using ht
      | readyClosed => rw [proxyLoop_readyClosed hg] at ht; simpa using ht
      | readyErr => rw [proxyLoop_readyErr hg] at ht; simpa using ht
      | readyData bytes =>
        by_cases hc : (bytes.take (responseSize - 1 - acc.length)).length = 0
        · rw [proxyLoop_readyData_empty hg hc] at ht; simpa using ht
        · by_cases hterm :
              terminator <:+: cstr (acc ++ bytes.take (responseSize - 1 - acc.length))
          · rw [proxyLoop_readyData_break hg hc hterm] at ht; simpa using ht
          · rw [proxyLoop_readyData_step hg hc hterm] at ht
            simp only [List.mem_cons] at ht
            rcases ht with rfl | ht
            · rfl
            · exact ih _ t ht
    · rw [proxyLoop_full hg] at ht; simp at ht

theorem loop_timeout_imp_mem (events : List PollEvent) (acc : List Char)
    (h : (proxyLoop events acc).out = .failure .timeout) :
    PollEvent.pollTimeout ∈ events := by
  induction events generalizing acc with
  | nil =>
    by_cases hg : acc.length < responseSize - 1
    · rw [proxyLoop_nil hg] at h; simp at h
    · rw [proxyLoop_full hg] at h; simp at h
  | cons e rest ih =>
    by_cases hg : acc.length < responseSize - 1
    · cases e with
      | pollTimeout => exact List.mem_cons_self _ _
      | pollErr => rw [proxyLoop_pollErr hg] at h; simp at h
      | readyOther => rw [proxyLoop_readyOther hg] at h; simp at h
      | readyClosed => rw [proxyLoop_readyClosed hg] at h; simp at h
      | readyErr => rw [proxyLoop_readyErr hg] at h; simp at h
      | readyData bytes =>
        by_cases hc : (bytes.take (responseSize - 1 - acc.length)).length = 0
        · rw [proxyLoop_readyData_empty hg hc] at h; simp at h
        · by_cases hterm :
              terminator <:+: cstr (acc ++ bytes.take (responseSize - 1 - acc.length))
          · rw [proxyLoop_readyData_break hg hc hterm] at h; simp at h
          · rw [proxyLoop_readyData_step hg hc hterm] at h
            exact List.mem_cons_of_mem _ (ih _ h)
    · rw [proxyLoop_full hg] at h; simp at h

theorem loop_failure_ne (events : List PollEvent) (acc : List Char) (c : Cause)
    (h : (proxyLoop events acc).out = .failure c) :
    c ≠ .success ∧ c ≠ .nomem ∧ c ≠ .requestTooLarge ∧ c ≠ .writeError ∧
    c ≠ .responseTooLarge ∧ c ≠ .proxyRejected := by
  induction events generalizing acc with
  | nil =>
    by_cases hg : acc.length < responseSize - 1
    · rw [proxyLoop_nil hg] at h; simp at h
    · rw [proxyLoop_full hg] at h; simp at h
  | cons e rest ih =>
    by_cases hg : acc.length < responseSize - 1
    · cases e with
      | pollErr => rw [proxyLoop_pollErr hg] at h; simp at h; subst h; decide
      | pollTimeout => rw [proxyLoop_pollTimeout hg] at h; simp at h; subst h; decide
      | readyOther => rw [proxyLoop_readyOther hg] at h; simp at h; subst h; decide
      | readyClosed => rw [proxyLoop_readyClosed hg] at h; simp at h; subst h; decide
      | readyErr => rw [proxyLoop_readyErr hg] at h; simp at h; subst h; decide
      | readyData bytes =>
        by_cases hc : (bytes.take (responseSize - 1 - acc.length)).length = 0
        · rw [proxyLoop_readyData_empty hg hc] at h; simp at h; subst h; decide
        · by_cases hterm :
              terminator <:+: cstr (acc ++ bytes.take (responseSize - 1 - acc.length))
          · rw [proxyLoop_readyData_break hg hc hterm] at h; simp at h
          · rw [proxyLoop_readyData_step hg hc hterm] at h
            exact ih _ h
    · rw [proxyLoop_full hg] at h; simp at h

theorem loop_response_length_le (events : List PollEvent) (acc : List Char)
    (h : acc.length ≤ responseSize - 1) :
    (proxyLoop events acc).response.length ≤ responseSize - 1 := by
  induction events generalizing acc with
  | nil =>
    by_cases hg : acc.length < responseSize - 1
    · rw [proxyLoop_nil hg]; simpa using h
    · rw [proxyLoop_full hg]; simpa using h
  | cons e rest ih =>
    by_cases hg : acc.length < responseSize - 1
    · cases e with
      | pollErr => rw [proxyLoop_pollErr hg]; simpa using h
      | pollTimeout => rw [proxyLoop_pollTimeout hg]; simpa using h
      | readyOther => rw [proxyLoop_readyOther hg]; simpa using h
      | readyClosed => rw [proxyLoop_readyClosed hg]; simpa using h
      | readyErr => rw [proxyLoop_readyErr hg]; simpa using h
      | readyData bytes =>
        have hlen2 : (acc ++ bytes.take (responseSize - 1 - acc.length)).length ≤
            responseSize - 1 := by
          simp only [List.length_append, List.length_take]
          omega
        by_cases hc : (bytes.take (responseSize - 1 - acc.length)).length = 0
        · rw [proxyLoop_readyData_empty hg hc]; simpa using h
        · by_cases hterm :
              terminator <:+: cstr (acc ++ bytes.take (responseSize - 1 - acc.length))
          · rw [proxyLoop_readyData_break hg hc hterm]; simpa using hlen2
          · rw [proxyLoop_readyData_step hg hc hterm]
            simpa using ih _ hlen2
    · rw [proxyLoop_full hg]; simpa using h

theorem loop_failure_no_terminator (events : List PollEvent) (acc : List Char)
    (hn : ¬ terminator <:+: cstr acc) (c : Cause)
    (h : (proxyLoop events acc).out = .failure c) :
    ¬ terminator <:+: cstr (proxyLoop events acc).response := by
  induction events generalizing acc with
  | nil =>
    by_cases hg : acc.length < responseSize - 1
    · rw [proxyLoop_nil hg] at h; simp at h
    · rw [proxyLoop_full hg] at h; simp at h
  | cons e rest ih =>
    by_cases hg : acc.length < responseSize - 1
    · cases e with
      | pollErr => rw [proxyLoop_pollErr hg]; simpa using hn
      | pollTimeout => rw [proxyLoop_pollTimeout hg]; simpa using hn
      | readyOther => rw [proxyLoop_readyOther hg]; simpa using hn
      | readyClosed => rw [proxyLoop_readyClosed hg]; simpa using hn
      | readyErr => rw [proxyLoop_readyErr hg]; simpa using hn
      | readyData bytes =>
        by_cases hc : (bytes.take (responseSize - 1 - acc.length)).length = 0
        · rw [proxyLoop_readyData_empty hg hc]; simpa using hn
        · by_cases hterm :
              terminator <:+: cstr (acc ++ bytes.take (responseSize - 1 - acc.length))
          · rw [proxyLoop_readyData_break hg hc hterm] at h; simp at h
          · rw [proxyLoop_readyData_step hg hc hterm] at h ⊢
            exact ih _ hterm h
    · rw [proxyLoop_full hg] at h; simp at h

/-- Exhaustive classification of the return paths of net__proxy_connect,
mirroring the seven return statements reachable once the function is
entered with the given oracles. -/
theorem connect_cases (auth : Option (List Char)) (hst : List Char) (p : Int)
    (ra wo : Bool) (events : List PollEvent) (r : ConnectResult)
    (h : net__proxy_connect auth hst p ra wo events = some r) :
    (ra = false ∧ r = ⟨MOSQ_ERR_NOMEM, .nomem, [], [], [], []⟩) ∨
    (ra = true ∧
      ((buildRequest auth hst p).length = 0 ∨
        requestSize ≤ (buildRequest auth hst p).length) ∧
      r = ⟨MOSQ_ERR_PROXY, .requestTooLarge, [], [], [], []⟩) ∨
    (ra = true ∧ wo = false ∧
      r = ⟨MOSQ_ERR_PROXY, .writeError, [], [buildRequest auth hst p], [], []⟩) ∨
    (∃ c, (proxyLoop events []).out = .failure c ∧
      r = ⟨MOSQ_ERR_PROXY, c, (proxyLoop events []).response,
           [buildRequest auth hst p],
           (proxyLoop events []).polls, (proxyLoop events []).reads⟩) ∨
    ((proxyLoop events []).out = .finished ∧
      terminator <:+: cstr (proxyLoop events []).response ∧
      (statusPat11 <+: cstr (proxyLoop events []).response ∨
        statusPat10 <+: cstr (proxyLoop events []).response) ∧
      r = ⟨MOSQ_ERR_SUCCESS, .success, (proxyLoop events []).response,
           [buildRequest auth hst p],
           (proxyLoop events []).polls, (proxyLoop events []).reads⟩) ∨
    ((proxyLoop events []).out = .finished ∧
      terminator <:+: cstr (proxyLoop events []).response ∧
      ¬ (statusPat11 <+: cstr (proxyLoop events []).response ∨
          statusPat10 <+: cstr (proxyLoop events []).response) ∧
      r = ⟨MOSQ_ERR_PROXY, .proxyRejected, (proxyLoop events []).response,
           [buildRequest auth hst p],
           (proxyLoop events []).polls, (proxyLoop events []).reads⟩) ∨
    ((proxyLoop events []).out = .finished ∧
      ¬ terminator <:+: cstr (proxyLoop events []).response ∧
      r = ⟨MOSQ_ERR_PROXY, .responseTooLarge, (proxyLoop events []).response,
           [buildRequest auth hst p],
           (proxyLoop events []).polls, (proxyLoop events []).reads⟩) := by
  unfold net__proxy_connect at h
  by_cases hra : ra = false
  · rw [if_pos hra] at h
    exact Or.inl ⟨hra, (Option.some.inj h).symm⟩
  · rw [if_neg hra] at h
    have hra' : ra = true := by cases ra <;> simp_all
    by_cases hb : (buildRequest auth hst p).length = 0 ∨
        requestSize ≤ (buildRequest auth hst p).length
    · rw [if_pos hb] at h
      exact Or.inr (Or.inl ⟨hra', hb, (Option.some.inj h).symm⟩)
    · rw [if_neg hb] at h
      by_cases hwo : wo = false
      · rw [if_pos hwo] at h
        exact Or.inr (Or.inr (Or.inl ⟨hra', hwo, (Option.some.inj h).symm⟩))
      · rw [if_neg hwo] at h
        cases hout : (proxyLoop events []).out with
        | outOfEvents => rw [hout] at h; simp at h
        | failure c =>
          rw [hout] at h
          exact Or.inr (Or.inr (Or.inr (Or.inl ⟨c, rfl, (Option.some.inj h).symm⟩)))
        | finished =>
          rw [hout] at h
          by_cases hterm : terminator <:+: cstr (proxyLoop events []).response
          · rw [if_pos hterm] at h
            by_cases hstat : statusPat11 <+: cstr (proxyLoop events []).response ∨
                statusPat10 <+: cstr (proxyLoop events []).response
            · rw [if_pos hstat] at h
              exact Or.inr (Or.inr (Or.inr (Or.inr (Or.inl
                ⟨rfl, hterm, hstat, (Option.some.inj h).symm⟩))))
            · rw [if_neg hstat] at h
              exact Or.inr (Or.inr (Or.inr (Or.inr (Or.inr (Or.inl
                ⟨rfl, hterm, hstat, (Option.some.inj h).symm⟩)))))
          · rw [if_neg hterm] at h
            exact Or.inr (Or.inr (Or.inr (Or.inr (Or.inr (Or.inr
              ⟨rfl, hterm, (Option.some.inj h).symm⟩)))))

/-! Claim C10. -/

/-- C10: in any loop iteration of net__proxy_connect where poll reports an
event whose event set lacks POLLIN, the loop returns a failure immediately:
the iteration performs no read call and leaves the accumulated response
bytes unchanged; a run exiting through this branch returns MOSQ_ERR_PROXY. -/
theorem c10_no_pollin_immediate_failure (rest : List PollEvent) (acc : List Char)
    (hg : acc.length < responseSize - 1) :
    proxyLoop (.readyOther :: rest) acc =
      ⟨.failure .socketError, acc, [connect_timeout_ms], []⟩ ∧
    (∀ auth hst p ra wo events r,
      net__proxy_connect auth hst p ra wo events = some r →
      r.cause = .socketError → r.rc = MOSQ_ERR_PROXY) := by
  refine ⟨proxyLoop_readyOther hg, ?_⟩
  intro auth hst p ra wo events r h hc
  rcases connect_cases auth hst p ra wo events r h with
    ⟨_, rfl⟩ | ⟨_, _, rfl⟩ | ⟨_, _, rfl⟩ | ⟨c, hout, rfl⟩ |
    ⟨_, _, _, rfl⟩ | ⟨_, _, _, rfl⟩ | ⟨_, _, rfl⟩ <;>
    first | rfl | simp_all

/-- Witness for C10 at a concrete iteration state. -/
theorem c10_witness :
    ([] : List Char).length < responseSize - 1 ∧
    proxyLoop [PollEvent.readyOther] [] =
      ⟨.failure .socketError, [], [connect_timeout_ms], []⟩ :=
  ⟨by decide, (c10_no_pollin_immediate_failure [] [] (by decide)).1⟩

/-! Claim C8. -/

/-- C8: every poll call of the accumulation loop is handed the full
configured connect timeout (10000 ms) afresh, independent of earlier
iterations, and a timeout failure arises only from a poll event that
reported no readiness within that full timeout. -/
theorem c8_timeout_per_iteration (auth : Option (List Char)) (hst : List Char)
    (p : Int) (ra wo : Bool) (events : List PollEvent) (r : ConnectResult)
    (h : net__proxy_connect auth hst p ra wo events = some r) :
    (∀ t ∈ r.polls, t = connect_timeout_ms) ∧
    (r.cause = .timeout → PollEvent.pollTimeout ∈ events) := by
  rcases connect_cases auth hst p ra wo events r h with
    ⟨_, rfl⟩ | ⟨_, _, rfl⟩ | ⟨_, _, rfl⟩ | ⟨c, hout, rfl⟩ |
    ⟨_, _, _, rfl⟩ | ⟨_, _, _, rfl⟩ | ⟨_, _, rfl⟩
  · exact ⟨by simp, by intro hc; simp at hc⟩
  · exact ⟨by simp, by intro hc; simp at hc⟩
  · exact ⟨by simp, by intro hc; simp at hc⟩
  · refine ⟨loop_polls_const events [], ?_⟩
    intro hc
    have hc' : c = Cause.timeout := hc
    exact loop_timeout_imp_mem events [] (by rw [hout, hc'])
  · exact ⟨loop_polls_const events [], by intro hc; simp at hc⟩
  · exact ⟨loop_polls_const events [], by intro hc; simp at hc⟩
  · exact ⟨loop_polls_const events [], by intro hc; simp at hc⟩

/-- Witness for C8 at a concrete run. -/
theorem c8_witness :
    net__proxy_connect none "h".toList 1 true true [PollEvent.pollTimeout] =
      some ⟨MOSQ_ERR_PROXY, .timeout, [], [buildRequest none "h".toList 1],
            [connect_timeout_ms], []⟩ ∧
    (∀ t ∈ [connect_timeout_ms], t = connect_timeout_ms) ∧
    PollEvent.pollTimeout ∈ [PollEvent.pollTimeout] := by
  have h : net__proxy_connect none "h".toList 1 true true [PollEvent.pollTimeout] =
      some ⟨MOSQ_ERR_PROXY, .timeout, [], [buildRequest none "h".toList 1],
            [connect_timeout_ms], []⟩ := by decide
  have h2 := c8_timeout_per_iteration none "h".toList 1 true true
    [PollEvent.pollTimeout] _ h
  exact ⟨h, fun t ht => h2.1 t (by simpa using ht), h2.2 (by rfl)⟩

/-! Claim C9. -/

/-- Amended C9: every handshake failure after the response-buffer allocation
returns the single value MOSQ_ERR_PROXY, and the allocation failure returns
MOSQ_ERR_NOMEM, so distinct failure kinds are not distinguishable from the
returned value; success alone returns MOSQ_ERR_SUCCESS. -/
theorem c9_flat_error_value (auth : Option (List Char)) (hst : List Char)
    (p : Int) (ra wo : Bool) (events : List PollEvent) (r : ConnectResult)
    (h : net__proxy_connect auth hst p ra wo events = some r) :
    (r.cause ≠ .success → r.cause ≠ .nomem → r.rc = MOSQ_ERR_PROXY) ∧
    (r.cause = .success → r.rc = MOSQ_ERR_SUCCESS) ∧
    (r.cause = .nomem → r.rc = MOSQ_ERR_NOMEM) := by
  rcases connect_cases auth hst p ra wo events r h with
    ⟨_, rfl⟩ | ⟨_, _, rfl⟩ | ⟨_, _, rfl⟩ | ⟨c, hout, rfl⟩ |
    ⟨_, _, _, rfl⟩ | ⟨_, _, _, rfl⟩ | ⟨_, _, rfl⟩
  · exact ⟨fun h1 h2 => absurd rfl h2, by intro hc; simp at hc, fun _ => rfl⟩
  · exact ⟨fun _ _ => rfl, by intro hc; simp at hc, by intro hc; simp at hc⟩
  · exact ⟨fun _ _ => rfl, by intro hc; simp at hc, by intro hc; simp at hc⟩
  · obtain ⟨hc1, hc2, _⟩ := loop_failure_ne events [] c hout
    exact ⟨fun _ _ => rfl, fun hc => absurd hc hc1, fun hc => absurd hc hc2⟩
  · exact ⟨fun h1 _ => absurd rfl h1, fun _ => rfl, by intro hc; simp at hc⟩
  · exact ⟨fun _ _ => rfl, by intro hc; simp at hc, by intro hc; simp at hc⟩
  · exact ⟨fun _ _ => rfl, by intro hc; simp at hc, by intro hc; simp at hc⟩

/-- Counterexample to C9 as stated: a timeout failure and a proxy-rejected
failure are different failure causes, yet both return the same error value
(MOSQ_ERR_PROXY), so the returned value alone cannot distinguish them. -/
theorem c9_counterexample :
    c9runA.cause = Cause.timeout ∧ c9runB.cause = Cause.proxyRejected ∧
    c9runA.cause ≠ c9runB.cause ∧ c9runA.rc = c9runB.rc ∧
    c9runA.rc = MOSQ_ERR_PROXY := by decide

/-- Witness for the amended C9 at a concrete run. -/
theorem c9_witness :
    net__proxy_connect none "h".toList 1 true true [PollEvent.pollErr] =
      some ⟨MOSQ_ERR_PROXY, .pollError, [], [buildRequest none "h".toList 1],
            [connect_timeout_ms], []⟩ ∧
    Cause.pollError ≠ Cause.success ∧ (MOSQ_ERR_PROXY : Nat) = 16 := by
  have h : net__proxy_connect none "h".toList 1 true true [PollEvent.pollErr] =
      some ⟨MOSQ_ERR_PROXY, .pollError, [], [buildRequest none "h".toList 1],
            [connect_timeout_ms], []⟩ := by decide
  have h2 := c9_flat_error_value none "h".toList 1 true true [PollEvent.pollErr] _ h
  exact ⟨h, by decide, h2.1 (by decide) (by decide)⟩

/-! Claim C6. -/

/-- Amended C6: a call to mosquitto_proxy_set with an absent (NULL) host or a
port outside [1, 65535] fails with MOSQ_ERR_INVAL and leaves the prior
configuration completely unchanged.  (An empty but non-NULL host string is
accepted, see the counterexample.) -/
theorem c6_invalid_args_unchanged (prior : Proxy) (host : Option (List Char))
    (port : Int) (v : Option (List Char)) (hA aA : Bool)
    (h : host = none ∨ port ≤ 0 ∨ 65535 < port) :
    mosquitto_proxy_set prior host port v hA aA = (MOSQ_ERR_INVAL, prior) := by
  rcases h with rfl | h
  · rfl
  · cases host with
    | none => rfl
    | some hh =>
      simp only [mosquitto_proxy_set]
      rw [if_pos h]

/-- Counterexample to C6 as stated: the empty (but non-NULL) host string is
accepted, returning MOSQ_ERR_SUCCESS and installing the empty host, because
the source only checks the pointer for NULL, not the string for emptiness. -/
theorem c6_counterexample :
    mosquitto_proxy_set ⟨none, 0, none⟩ (some []) 8080 none true true =
      (MOSQ_ERR_SUCCESS, ⟨some [], 8080, none⟩) ∧
    MOSQ_ERR_SUCCESS ≠ MOSQ_ERR_INVAL := by decide

/-- Witness for the amended C6 at concrete inputs. -/
theorem c6_witness :
    ((none : Option (List Char)) = none ∨ (8080 : Int) ≤ 0 ∨ 65535 < (8080 : Int)) ∧
    mosquitto_proxy_set ⟨some "old".toList, 1, none⟩ none 8080 none true true =
      (MOSQ_ERR_INVAL, ⟨some "old".toList, 1, none⟩) :=
  ⟨Or.inl rfl,
   c6_invalid_args_unchanged ⟨some "old".toList, 1, none⟩ none 8080 none true true
     (Or.inl rfl)⟩

/-! Claim C7. -/

/-- Amended C7: on allocation failure mosquitto_proxy_set returns
MOSQ_ERR_NOMEM with host and auth_header cleared, but the port field is not
reset: when the host copy fails it retains the prior port, and when the
auth-header allocation fails it holds the newly installed port alongside the
cleared host. -/
theorem c7_alloc_failure_state (prior : Proxy) (h : List Char) (port : Int)
    (v : Option (List Char)) (vv : List Char) (aA : Bool)
    (hport : ¬ (port ≤ 0 ∨ 65535 < port)) (hv : vv ≠ []) :
    mosquitto_proxy_set prior (some h) port v false aA =
      (MOSQ_ERR_NOMEM, ⟨none, prior.port, none⟩) ∧
    mosquitto_proxy_set prior (some h) port (some vv) true false =
      (MOSQ_ERR_NOMEM, ⟨none, port, none⟩) := by
  constructor
  · simp only [mosquitto_proxy_set]
    rw [if_neg hport]
    simp
  · simp only [mosquitto_proxy_set]
    rw [if_neg hport]
    have hlen : 0 < vv.length := List.length_pos.mpr hv
    simp [hlen]

/-- Counterexample to C7 as stated: with prior port 1, an auth-header
allocation failure returns MOSQ_ERR_NOMEM with the new port 8080 installed
alongside the cleared host — exactly the partially-applied state the claim
rules out (the port is neither cleared nor restored). -/
theorem c7_counterexample :
    mosquitto_proxy_set ⟨none, 1, none⟩ (some "proxyhost".toList) 8080
        (some "Basic dXNlcjpwYXNz".toList) true false =
      (MOSQ_ERR_NOMEM, ⟨none, 8080, none⟩) ∧ (8080 : Int) ≠ 1 := by decide

/-- Witness for the amended C7 at concrete inputs. -/
theorem c7_witness :
    ¬ ((80 : Int) ≤ 0 ∨ 65535 < (80 : Int)) ∧
    mosquitto_proxy_set ⟨none, 7, none⟩ (some "p".toList) 80 none false true =
      (MOSQ_ERR_NOMEM, ⟨none, 7, none⟩) ∧
    mosquitto_proxy_set ⟨none, 7, none⟩ (some "p".toList) 80
        (some "Basic x".toList) true false = (MOSQ_ERR_NOMEM, ⟨none, 80, none⟩) :=
  ⟨by decide,
   (c7_alloc_failure_state ⟨none, 7, none⟩ "p".toList 80 none "Basic x".toList true
     (by decide) (by decide)).1,
   (c7_alloc_failure_state ⟨none, 7, none⟩ "p".toList 80 none "Basic x".toList true
     (by decide) (by decide)).2⟩

/-! Claim C5. -/

/-- C5: whenever the formatted CONNECT request reaches or exceeds the fixed
request capacity of 1024 bytes, net__proxy_connect fails with the
request-too-large cause before any socket write: the write trace is empty. -/
theorem c5_request_too_large_no_write (auth : Option (List Char)) (hst : List Char)
    (p : Int) (wo : Bool) (events : List PollEvent)
    (h : requestSize ≤ (buildRequest auth hst p).length) :
    net__proxy_connect auth hst p true wo events =
      some ⟨MOSQ_ERR_PROXY, .requestTooLarge, [], [], [], []⟩ := by
  unfold net__proxy_connect
  rw [if_neg (by simp), if_pos (Or.inr h)]

/-- The request built from the overlong host reaches the request capacity. -/
theorem c5host_too_long : requestSize ≤ (buildRequest none c5host 1).length := by
  simp only [buildRequest, List.length_append, c5host, List.length_replicate,
    requestSize]
  omega

/-- Witness for C5 at a concrete overlong destination host. -/
theorem c5_witness :
    requestSize ≤ (buildRequest none c5host 1).length ∧
    net__proxy_connect none c5host 1 true true [] =
      some ⟨MOSQ_ERR_PROXY, .requestTooLarge, [], [], [], []⟩ :=
  ⟨c5host_too_long,
   c5_request_too_large_no_write none c5host 1 true [] c5host_too_long⟩

/-! Claim C2. -/

/-- Helper: the four-byte terminator cannot occur in an empty C string. -/
theorem terminator_not_infix_nil : ¬ terminator <:+: cstr ([] : List Char) := by
  decide

/-- C2: whenever the returned result's accumulated response contains the
terminator, the call returned MOSQ_ERR_SUCCESS exactly when the response
begins with the 12-byte prefix HTTP/1.1 200 or HTTP/1.0 200, and with any
other prefix it returned the proxy-rejected failure. -/
theorem c2_status_validation (auth : Option (List Char)) (hst : List Char)
    (p : Int) (ra wo : Bool) (events : List PollEvent) (r : ConnectResult)
    (h : net__proxy_connect auth hst p ra wo events = some r)
    (hterm : terminator <:+: cstr r.response) :
    (r.rc = MOSQ_ERR_SUCCESS ↔
      (statusPat11 <+: cstr r.response ∨ statusPat10 <+: cstr r.response)) ∧
    (¬ (statusPat11 <+: cstr r.response ∨ statusPat10 <+: cstr r.response) →
      r.rc = MOSQ_ERR_PROXY ∧ r.cause = Cause.proxyRejected) := by
  rcases connect_cases auth hst p ra wo events r h with
    ⟨_, rfl⟩ | ⟨_, _, rfl⟩ | ⟨_, _, rfl⟩ | ⟨c, hout, rfl⟩ |
    ⟨hfin, ht, hstat, rfl⟩ | ⟨hfin, ht, hstat, rfl⟩ | ⟨hfin, hnt, rfl⟩
  · exact absurd hterm terminator_not_infix_nil
  · exact absurd hterm terminator_not_infix_nil
  · exact absurd hterm terminator_not_infix_nil
  · exact absurd hterm
      (loop_failure_no_terminator events [] terminator_not_infix_nil c hout)
  · exact ⟨⟨fun _ => hstat, fun _ => rfl⟩, fun hn => absurd hstat hn⟩
  · refine ⟨⟨fun h0 => absurd (show MOSQ_ERR_PROXY = MOSQ_ERR_SUCCESS from h0)
      (by decide), fun hs => absurd hs hstat⟩, ?_⟩
    exact fun _ => ⟨rfl, rfl⟩
  · exact absurd hterm hnt

/-- Witness for C2 at a concrete accepting run. -/
theorem c2_witness :
    net__proxy_connect none "h".toList 1 true true c2events = some c2run ∧
    terminator <:+: cstr c2run.response ∧
    (c2run.rc = MOSQ_ERR_SUCCESS ↔
      (statusPat11 <+: cstr c2run.response ∨ statusPat10 <+: cstr c2run.response)) := by
  have h1 : net__proxy_connect none "h".toList 1 true true c2events = some c2run := by
    decide
  have h2 : terminator <:+: cstr c2run.response := by decide
  exact ⟨h1, h2,
    (c2_status_validation none "h".toList 1 true true c2events c2run h1 h2).1⟩

/-! Claim C1. -/

/-- The accumulation loop, fed only successful reads that fit in the buffer
and whose concatenation first contains the terminator after the final chunk,
reaches the post-loop code with exactly the concatenation accumulated, one
poll and one read per chunk. -/
theorem loop_data_accumulate (cs : List (List Char)) (acc : List Char)
    (hchunks : ∀ c ∈ cs, c ≠ [])
    (hlen : acc.length + cs.flatten.length ≤ responseSize - 1)
    (hn0 : ¬ terminator <:+: cstr acc)
    (hnot : ∀ j < cs.length, ¬ terminator <:+: cstr (acc ++ (cs.take j).flatten))
    (hfound : terminator <:+: cstr (acc ++ cs.flatten)) :
    (proxyLoop (cs.map PollEvent.readyData) acc).out = .finished ∧
    (proxyLoop (cs.map PollEvent.readyData) acc).response = acc ++ cs.flatten ∧
    (proxyLoop (cs.map PollEvent.readyData) acc).reads.length = cs.length ∧
    (proxyLoop (cs.map PollEvent.readyData) acc).polls.length = cs.length := by
  induction cs generalizing acc with
  | nil => exact absurd (by simpa using hfound) hn0
  | cons c rest ih =>
    have hc0 : c ≠ [] := hchunks c (List.mem_cons_self _ _)
    have hcpos : 0 < c.length := List.length_pos.mpr hc0
    have hflen : (c :: rest).flatten.length = c.length + rest.flatten.length := by
      simp
    have hguard : acc.length < responseSize - 1 := by omega
    have htake : c.take (responseSize - 1 - acc.length) = c :=
      List.take_of_length_le (by omega)
    have hcne : ¬ (c.take (responseSize - 1 - acc.length)).length = 0 := by
      rw [htake]; omega
    cases rest with
    | nil =>
      have hterm2 : terminator <:+: cstr (acc ++ c.take (responseSize - 1 - acc.length)) := by
        rw [htake]; simpa using hfound
      rw [List.map_cons, List.map_nil, proxyLoop_readyData_break hguard hcne hterm2]
      refine ⟨rfl, ?_, rfl, rfl⟩
      rw [htake]; simp
    | cons d ds =>
      have hnt1 : ¬ terminator <:+: cstr (acc ++ c) := by
        have h1 := hnot 1 (by simp)
        simpa using h1
      have hnt1' : ¬ terminator <:+:
          cstr (acc ++ c.take (responseSize - 1 - acc.length)) := by
        rw [htake]; exact hnt1
      rw [List.map_cons, proxyLoop_readyData_step hguard hcne hnt1', htake]
      have hlen' : (acc ++ c).length + (d :: ds).flatten.length ≤ responseSize - 1 := by
        simp only [List.length_append]
        simp only [List.flatten_cons, List.length_append] at hlen ⊢
        omega
      have hnot' : ∀ j < (d :: ds).length,
          ¬ terminator <:+: cstr ((acc ++ c) ++ ((d :: ds).take j).flatten) := by
        intro j hj
        have h1 := hnot (j + 1) (by simpa using Nat.succ_lt_succ hj)
        simpa [List.append_assoc] using h1
      have hfound' : terminator <:+: cstr ((acc ++ c) ++ (d :: ds).flatten) := by
        simpa [List.append_assoc] using hfound
      obtain ⟨hout', hresp', hreads', hpolls'⟩ :=
        ih (acc ++ c) (fun x hx => hchunks x (List.mem_cons_of_mem _ hx))
          hlen' hnt1 hnot' hfound'
      refine ⟨hout', ?_, ?_, ?_⟩
      · show (proxyLoop ((d :: ds).map PollEvent.readyData) (acc ++ c)).response = _
        rw [hresp']
        simp
      · show ((responseSize - 1 - acc.length) ::
            (proxyLoop ((d :: ds).map PollEvent.readyData) (acc ++ c)).reads).length = _
        rw [List.length_cons, hreads']
        simp
      · show (connect_timeout_ms ::
            (proxyLoop ((d :: ds).map PollEvent.readyData) (acc ++ c)).polls).length = _
        rw [List.length_cons, hpolls']
        simp

/-- The formatted CONNECT request is never empty. -/
theorem buildRequest_length_pos (auth : Option (List Char)) (hst : List Char)
    (p : Int) : 0 < (buildRequest auth hst p).length := by
  have h8 : ("CONNECT ".toList : List Char).length = 8 := rfl
  cases auth <;> simp only [buildRequest, List.length_append] <;> omega

/-- C1: a response delivered across several reads, each fitting in the
response buffer, with the terminator first appearing once the final fragment
arrives and an accepted status prefix, is accumulated in order and the
handshake returns MOSQ_ERR_SUCCESS, with one read per fragment. -/
theorem c1_fragmented_accumulation (auth : Option (List Char)) (hst : List Char)
    (p : Int) (cs : List (List Char))
    (hreq : (buildRequest auth hst p).length < requestSize)
    (hchunks : ∀ c ∈ cs, c ≠ [])
    (hlen : cs.flatten.length ≤ responseSize - 1)
    (hnot : ∀ j < cs.length, ¬ terminator <:+: cstr (cs.take j).flatten)
    (hfound : terminator <:+: cstr cs.flatten)
    (hstat : statusPat11 <+: cstr cs.flatten ∨ statusPat10 <+: cstr cs.flatten) :
    ∃ r, net__proxy_connect auth hst p true true (cs.map PollEvent.readyData) =
        some r ∧
      r.rc = MOSQ_ERR_SUCCESS ∧ r.cause = Cause.success ∧
      r.response = cs.flatten ∧ r.reads.length = cs.length := by
  obtain ⟨hout, hresp, hreads, hpolls⟩ :=
    loop_data_accumulate cs [] hchunks (by simpa using hlen)
      terminator_not_infix_nil (by simpa using hnot) (by simpa using hfound)
  have hterm2 : terminator <:+:
      cstr (proxyLoop (cs.map PollEvent.readyData) []).response := by
    rw [hresp]; simpa using hfound
  have hstat2 : statusPat11 <+:
        cstr (proxyLoop (cs.map PollEvent.readyData) []).response ∨
      statusPat10 <+: cstr (proxyLoop (cs.map PollEvent.readyData) []).response := by
    rw [hresp]; simpa using hstat
  have hno : ¬ ((buildRequest auth hst p).length = 0 ∨
      requestSize ≤ (buildRequest auth hst p).length) := by
    have := buildRequest_length_pos auth hst p
    omega
  refine ⟨⟨MOSQ_ERR_SUCCESS, .success,
      (proxyLoop (cs.map PollEvent.readyData) []).response,
      [buildRequest auth hst p],
      (proxyLoop (cs.map PollEvent.readyData) []).polls,
      (proxyLoop (cs.map PollEvent.readyData) []).reads⟩, ?_, rfl, rfl, ?_, ?_⟩
  · unfold net__proxy_connect
    rw [if_neg (by simp), if_neg hno, if_neg (by simp), hout]
    rw [if_pos hterm2, if_pos hstat2]
  · exact by simpa using hresp
  · exact by simpa using hreads

/-- Witness for C1 on the spec's two-fragment example. -/
theorem c1_witness :
    (∀ j < c1chunks.length, ¬ terminator <:+: cstr (c1chunks.take j).flatten) ∧
    terminator <:+: cstr c1chunks.flatten ∧
    ∃ r, net__proxy_connect none "example.com".toList 443 true true
        (c1chunks.map PollEvent.readyData) = some r ∧
      r.rc = MOSQ_ERR_SUCCESS ∧ r.cause = Cause.success ∧
      r.response = c1chunks.flatten ∧ r.reads.length = c1chunks.length :=
  ⟨by decide, by decide,
   c1_fragmented_accumulation none "example.com".toList 443 c1chunks
     (by decide) (by decide) (by decide) (by decide) (by decide) (by decide)⟩

/-! Claim C3. -/

/-- Truncating an already-truncated left part does not change a bounded take
of an append. -/
theorem take_append_take {α : Type} (l m : List α) (n : Nat) :
    (l.take n ++ m).take n = (l ++ m).take n := by
  rw [List.take_append_eq_append_take, List.take_append_eq_append_take,
    List.take_take, Nat.min_self]
  have h1 : n - (l.take n).length = n - l.length := by
    rw [List.length_take]; omega
  rw [h1]

/-- The C-string view is monotone with respect to list prefixes. -/
theorem cstr_prefix_mono {l m : List Char} (h : l <+: m) : cstr l <+: cstr m := by
  obtain ⟨t, rfl⟩ := h
  unfold cstr
  rw [List.takeWhile_append]
  split
  · exact (List.takeWhile_prefix _).trans (List.prefix_append _ _)
  · exact List.prefix_rfl

/-- An occurrence of the terminator in the C-string view of a prefix is an
occurrence in the C-string view of the whole. -/
theorem infix_cstr_extend {l m : List Char} (h : l <+: m)
    (ht : terminator <:+: cstr l) : terminator <:+: cstr m :=
  ht.trans (cstr_prefix_mono h).isInfix

/-- The head of a pattern occurring inside a list is a member of it. -/
theorem mem_of_cons_infix {α : Type} {a : α} {t l : List α}
    (h : (a :: t) <:+: l) : a ∈ l := by
  obtain ⟨s, u, rfl⟩ := h
  simp

/-- Fed only successful reads carrying at least the buffer capacity in total,
with no terminator in the C-string view of the part that fits, the loop fills
the buffer exactly to capacity and reaches the post-loop code. -/
theorem loop_data_fill (cs : List (List Char)) (acc : List Char)
    (hchunks : ∀ c ∈ cs, c ≠ [])
    (hacc : acc.length ≤ responseSize - 1)
    (htotal : responseSize - 1 ≤ acc.length + cs.flatten.length)
    (hnot : ¬ terminator <:+: cstr ((acc ++ cs.flatten).take (responseSize - 1))) :
    (proxyLoop (cs.map PollEvent.readyData) acc).out = .finished ∧
    (proxyLoop (cs.map PollEvent.readyData) acc).response =
      (acc ++ cs.flatten).take (responseSize - 1) := by
  induction cs generalizing acc with
  | nil =>
    have hlen : acc.length = responseSize - 1 := by
      simp only [List.flatten_nil, List.length_nil] at htotal
      omega
    have hfull : ¬ acc.length < responseSize - 1 := by omega
    rw [List.map_nil, proxyLoop_full hfull]
    refine ⟨rfl, ?_⟩
    simp [List.take_of_length_le hacc]
  | cons c rest ih =>
    by_cases hg : acc.length < responseSize - 1
    · have hc0 : c ≠ [] := hchunks c (List.mem_cons_self _ _)
      have hcpos : 0 < c.length := List.length_pos.mpr hc0
      have hcne : ¬ (c.take (responseSize - 1 - acc.length)).length = 0 := by
        rw [List.length_take]; omega
      have h1 : acc ++ c.take (responseSize - 1 - acc.length) =
          (acc ++ c).take (responseSize - 1) := by
        rw [List.take_append_eq_append_take, List.take_of_length_le (l := acc) hacc]
      have hkey : ((acc ++ c.take (responseSize - 1 - acc.length)) ++
            rest.flatten).take (responseSize - 1) =
          (acc ++ (c :: rest).flatten).take (responseSize - 1) := by
        rw [h1, take_append_take, List.flatten_cons, List.append_assoc]
      have hpref : (acc ++ c.take (responseSize - 1 - acc.length)) <+:
          ((acc ++ (c :: rest).flatten).take (responseSize - 1)) := by
        rw [← hkey, List.take_append_eq_append_take,
          List.take_of_length_le (l := acc ++ c.take (responseSize - 1 - acc.length))
            (by rw [List.length_append, List.length_take]; omega)]
        exact List.prefix_append _ _
      have hterm2 : ¬ terminator <:+:
          cstr (acc ++ c.take (responseSize - 1 - acc.length)) :=
        fun ht => hnot (infix_cstr_extend hpref ht)
      rw [List.map_cons, proxyLoop_readyData_step hg hcne hterm2]
      have hacc2 : (acc ++ c.take (responseSize - 1 - acc.length)).length ≤
          responseSize - 1 := by
        rw [List.length_append, List.length_take]; omega
      have htotal2 : responseSize - 1 ≤
          (acc ++ c.take (responseSize - 1 - acc.length)).length +
            rest.flatten.length := by
        rw [List.length_append, List.length_take]
        simp only [List.flatten_cons, List.length_append] at htotal
        omega
      have hnot2 : ¬ terminator <:+:
          cstr (((acc ++ c.take (responseSize - 1 - acc.length)) ++
            rest.flatten).take (responseSize - 1)) := by
        rw [hkey]; exact hnot
      obtain ⟨hout2, hresp2⟩ :=
        ih (acc ++ c.take (responseSize - 1 - acc.length))
          (fun x hx => hchunks x (List.mem_cons_of_mem _ hx)) hacc2 htotal2 hnot2
      refine ⟨hout2, ?_⟩
      show (proxyLoop (rest.map PollEvent.readyData)
          (acc ++ c.take (responseSize - 1 - acc.length))).response = _
      rw [hresp2, hkey]
    · rw [proxyLoop_full hg]
      have hlen : acc.length = responseSize - 1 := by omega
      refine ⟨rfl, ?_⟩
      rw [List.take_append_eq_append_take, List.take_of_length_le hacc, hlen,
        Nat.sub_self, List.take_zero, List.append_nil]

/-- C3: the cursor total_read never exceeds response_size - 1 (so neither the
reads nor the NUL store ever touch index response_size or beyond), and a
stream of successful reads that never exhibits the terminator within the
buffer capacity makes net__proxy_connect leave the loop with a full buffer
and fail with the response-too-large cause. -/
theorem c3_bounded_and_too_large (events : List PollEvent) (acc : List Char)
    (auth : Option (List Char)) (hst : List Char) (p : Int)
    (cs : List (List Char))
    (hacc : acc.length ≤ responseSize - 1)
    (hreq : (buildRequest auth hst p).length < requestSize)
    (hchunks : ∀ c ∈ cs, c ≠ [])
    (htotal : responseSize - 1 ≤ cs.flatten.length)
    (hnot : ¬ terminator <:+: cstr (cs.flatten.take (responseSize - 1))) :
    (proxyLoop events acc).response.length ≤ responseSize - 1 ∧
    ∃ r, net__proxy_connect auth hst p true true (cs.map PollEvent.readyData) =
        some r ∧
      r.rc = MOSQ_ERR_PROXY ∧ r.cause = Cause.responseTooLarge ∧
      r.response.length = responseSize - 1 := by
  refine ⟨loop_response_length_le events acc hacc, ?_⟩
  obtain ⟨hout, hresp⟩ := loop_data_fill cs [] hchunks (by simp)
    (by simpa using htotal) (by simpa using hnot)
  have hterm : ¬ terminator <:+:
      cstr (proxyLoop (cs.map PollEvent.readyData) []).response := by
    rw [hresp]; simpa using hnot
  have hno : ¬ ((buildRequest auth hst p).length = 0 ∨
      requestSize ≤ (buildRequest auth hst p).length) := by
    have := buildRequest_length_pos auth hst p
    omega
  refine ⟨⟨MOSQ_ERR_PROXY, .responseTooLarge,
      (proxyLoop (cs.map PollEvent.readyData) []).response,
      [buildRequest auth hst p],
      (proxyLoop (cs.map PollEvent.readyData) []).polls,
      (proxyLoop (cs.map PollEvent.readyData) []).reads⟩, ?_, rfl, rfl, ?_⟩
  · unfold net__proxy_connect
    rw [if_neg (by simp), if_neg hno, if_neg (by simp), hout, if_neg hterm]
  · rw [hresp, List.length_take]
    simp only [List.nil_append]
    omega

/-- A buffer-filling stream of capital letters contains no terminator. -/
theorem c3_no_terminator_in_replicate :
    ¬ terminator <:+:
      cstr ((List.replicate 2047 'A' : List Char).take (responseSize - 1)) := by
  intro h
  have h2 : ('\r' :: "\n\r\n".toList) <:+:
      cstr ((List.replicate 2047 'A' : List Char).take (responseSize - 1)) := h
  have hmem : '\r' ∈ cstr ((List.replicate 2047 'A' : List Char).take (responseSize - 1)) :=
    mem_of_cons_infix h2
  have hmem2 : '\r' ∈ (List.replicate 2047 'A' : List Char) :=
    List.take_subset _ _ ((List.takeWhile_prefix _).sublist.subset hmem)
  have := List.eq_of_mem_replicate hmem2
  simp at this

/-- Witness for C3 on a concrete 2047-byte terminator-free stream. -/
theorem c3_witness :
    responseSize - 1 ≤ ([List.replicate 2047 'A'] : List (List Char)).flatten.length ∧
    (¬ terminator <:+:
      cstr (([List.replicate 2047 'A'] : List (List Char)).flatten.take (responseSize - 1))) ∧
    ∃ r, net__proxy_connect none "h".toList 1 true true
        (([List.replicate 2047 'A'] : List (List Char)).map PollEvent.readyData) =
        some r ∧
      r.rc = MOSQ_ERR_PROXY ∧ r.cause = Cause.responseTooLarge ∧
      r.response.length = responseSize - 1 := by
  have hflat : ([List.replicate 2047 'A'] : List (List Char)).flatten =
      List.replicate 2047 'A' := by
    rw [List.flatten_cons, List.flatten_nil, List.append_nil]
  have htotal : responseSize - 1 ≤
      ([List.replicate 2047 'A'] : List (List Char)).flatten.length := by
    rw [hflat, List.length_replicate]; decide
  have hnot : ¬ terminator <:+:
      cstr (([List.replicate 2047 'A'] : List (List Char)).flatten.take
        (responseSize - 1)) := by
    rw [hflat]; exact c3_no_terminator_in_replicate
  have hchunks : ∀ c ∈ ([List.replicate 2047 'A'] : List (List Char)), c ≠ [] := by
    intro c hc
    rw [List.mem_singleton] at hc
    subst hc
    intro hc0
    have hlen := congrArg List.length hc0
    rw [List.length_replicate, List.length_nil] at hlen
    exact absurd hlen (by decide)
  exact ⟨htotal, hnot,
    (c3_bounded_and_too_large [] [] none "h".toList 1 [List.replicate 2047 'A']
      (by decide) (by decide) hchunks htotal hnot).2⟩

/-! Claim C4. -/

/-- Digit characters are never a carriage return. -/
theorem digitChar_ne_cr (d : Nat) : digitChar d ≠ '\r' := by
  unfold digitChar
  split <;> decide

/-- Every character produced by the digit loop is a digit character or comes
from the initial accumulator. -/
theorem natDigitsCore_mem {fuel n : Nat} {acc : List Char} {x : Char}
    (hx : x ∈ natDigitsCore fuel n acc) : x ∈ acc ∨ ∃ d, x = digitChar d := by
  induction fuel generalizing n acc with
  | zero =>
    rw [natDigitsCore] at hx
    exact Or.inl hx
  | succ fuel ih =>
    rw [natDigitsCore] at hx
    split at hx
    · rcases List.mem_cons.mp hx with rfl | hmem
      · exact Or.inr ⟨n, rfl⟩
      · exact Or.inl hmem
    · rcases ih hx with hmem | hd
      · rcases List.mem_cons.mp hmem with rfl | hmem2
        · exact Or.inr ⟨n % 10, rfl⟩
        · exact Or.inl hmem2
      · exact Or.inr hd

/-- The decimal rendering of a C int never contains a carriage return. -/
theorem intStr_no_cr (p : Int) : '\r' ∉ intStr p := by
  intro hmem
  cases p with
  | ofNat n =>
    rcases natDigitsCore_mem (show '\r' ∈ natDigitsCore (n+1) n [] from hmem) with
      h | ⟨d, hd⟩
    · simp at h
    · exact digitChar_ne_cr d hd.symm
  | negSucc n =>
    rcases List.mem_cons.mp hmem with h | h
    · exact absurd h (by decide)
    · rcases natDigitsCore_mem (show '\r' ∈ natDigitsCore (n+1+1) (n+1) [] from h) with
        h2 | ⟨d, hd⟩
      · simp at h2
      · exact digitChar_ne_cr d hd.symm

/-- A pattern starting with a carriage return cannot start inside a
carriage-return-free left part of an append. -/
theorem no_cr_infix_shift {q l rest : List Char}
    (hl : '\r' ∉ l) (h : ('\r' :: q) <:+: (l ++ rest)) : ('\r' :: q) <:+: rest := by
  induction l with
  | nil => simpa using h
  | cons a l ih =>
    rw [List.cons_append, List.infix_cons_iff] at h
    rcases h with h | h
    · have ha : '\r' = a := (List.cons_prefix_cons.mp h).1
      subst ha
      exact absurd (List.mem_cons_self _ _) hl
    · exact ih (fun hm => hl (List.mem_cons_of_mem a hm)) h

/-- Without a configured auth header and with a carriage-return-free
destination host, the formatted request contains no Proxy-Authorization
header line. -/
theorem buildRequest_none_no_auth_line (hst : List Char) (p : Int)
    (hh : '\r' ∉ hst) :
    ¬ authLinePat <:+: buildRequest none hst p := by
  intro h
  have hps := intStr_no_cr p
  have e1 : (" HTTP/1.1\r\n".toList : List Char) =
      " HTTP/1.1".toList ++ ('\r' :: '\n' :: []) := rfl
  have e2 : ("\r\n".toList : List Char) = '\r' :: '\n' :: [] := rfl
  have hreq : buildRequest none hst p =
      ("CONNECT ".toList ++ hst ++ [':'] ++ intStr p ++ " HTTP/1.1".toList) ++
      ('\r' :: '\n' ::
        (("Host: ".toList ++ hst ++ [':'] ++ intStr p) ++ ['\r', '\n', '\r', '\n'])) := by
    simp only [buildRequest, e1, e2]
    simp [List.append_assoc]
  rw [hreq] at h
  have l1 : '\r' ∉ ("CONNECT ".toList : List Char) := by decide
  have l2 : '\r' ∉ ([':'] : List Char) := by decide
  have l3 : '\r' ∉ (" HTTP/1.1".toList : List Char) := by decide
  have l4 : '\r' ∉ ("Host: ".toList : List Char) := by decide
  have hA : '\r' ∉
      ("CONNECT ".toList ++ hst ++ [':'] ++ intStr p ++ " HTTP/1.1".toList) := by
    simp [List.mem_append, l1, l2, l3, hh, hps]
  have hB : '\r' ∉ ("Host: ".toList ++ hst ++ [':'] ++ intStr p) := by
    simp [List.mem_append, l2, l4, hh, hps]
  have hpat : authLinePat = '\r' :: '\n' :: 'P' :: "roxy-Authorization:".toList := rfl
  rw [hpat] at h
  have h2 := no_cr_infix_shift hA h
  rw [List.infix_cons_iff] at h2
  rcases h2 with h2 | h2
  · rw [List.cons_prefix_cons] at h2
    obtain ⟨-, h2⟩ := h2
    rw [List.cons_prefix_cons] at h2
    obtain ⟨-, h2⟩ := h2
    have hBc : ("Host: ".toList ++ hst ++ [':'] ++ intStr p) ++ ['\r', '\n', '\r', '\n'] =
        'H' :: ("ost: ".toList ++ hst ++ [':'] ++ intStr p ++ ['\r', '\n', '\r', '\n']) := by
      simp [List.append_assoc]
    rw [hBc, List.cons_prefix_cons] at h2
    exact absurd h2.1 (by decide)
  · rw [List.infix_cons_iff] at h2
    rcases h2 with h2 | h2
    · rw [List.cons_prefix_cons] at h2
      exact absurd h2.1 (by decide)
    · have h3 := no_cr_infix_shift hB h2
      have hlen := h3.length_le
      have hpl : ('\r' :: '\n' :: 'P' :: "roxy-Authorization:".toList).length = 22 := rfl
      rw [hpl] at hlen
      have h4 : (['\r', '\n', '\r', '\n'] : List Char).length = 4 := rfl
      rw [h4] at hlen
      omega

/-- Amended C4: for every destination host and port, the request formatted by
net__proxy_connect is the exact concatenation CONNECT host:port line, Host
line, then the configured auth header line when one is set and nothing
otherwise, followed by the final CRLF, so it always ends with the blank-line
terminator; when an auth value v was configured via mosquitto_proxy_set the
request contains the exact line built from v; and only the last clause is
conditional: when no auth value was configured and the destination host
itself contains no carriage return (no CRLF header injection), the request
contains no Proxy-Authorization line at all. -/
theorem c4_request_format (hst : List Char) (p : Int) (prior : Proxy)
    (ph : List Char) (pport : Int) (v : List Char)
    (hvalid : ¬ (pport ≤ 0 ∨ 65535 < pport)) (hv : v ≠ []) :
    (buildRequest (mosquitto_proxy_set prior (some ph) pport (some v) true
        true).2.auth_header hst p =
      "CONNECT ".toList ++ hst ++ [':'] ++ intStr p ++ " HTTP/1.1\r\n".toList ++
      "Host: ".toList ++ hst ++ [':'] ++ intStr p ++ "\r\n".toList ++
      ("Proxy-Authorization: ".toList ++ v ++ "\r\n".toList) ++ "\r\n".toList) ∧
    (("Proxy-Authorization: ".toList ++ v ++ "\r\n".toList) <:+:
      buildRequest (mosquitto_proxy_set prior (some ph) pport (some v) true
        true).2.auth_header hst p) ∧
    (terminator <:+ buildRequest (mosquitto_proxy_set prior (some ph) pport (some v)
        true true).2.auth_header hst p) ∧
    (buildRequest none hst p =
      "CONNECT ".toList ++ hst ++ [':'] ++ intStr p ++ " HTTP/1.1\r\n".toList ++
      "Host: ".toList ++ hst ++ [':'] ++ intStr p ++ "\r\n".toList ++
      "\r\n".toList) ∧
    (terminator <:+ buildRequest none hst p) ∧
    ('\r' ∉ hst → ¬ authLinePat <:+: buildRequest none hst p) := by
  have hcfg : (mosquitto_proxy_set prior (some ph) pport (some v) true
      true).2.auth_header =
      some ("Proxy-Authorization: ".toList ++ v ++ "\r\n".toList) := by
    simp only [mosquitto_proxy_set]
    rw [if_neg hvalid]
    simp [List.length_pos.mpr hv]
  rw [hcfg]
  refine ⟨?_, ?_, ?_, rfl, ?_, fun hh => buildRequest_none_no_auth_line hst p hh⟩
  · simp [buildRequest, List.append_assoc]
  · refine ⟨"CONNECT ".toList ++ hst ++ [':'] ++ intStr p ++ " HTTP/1.1\r\n".toList ++
      "Host: ".toList ++ hst ++ [':'] ++ intStr p ++ "\r\n".toList,
      "\r\n".toList, ?_⟩
    simp [buildRequest, List.append_assoc]
  · refine ⟨"CONNECT ".toList ++ hst ++ [':'] ++ intStr p ++ " HTTP/1.1\r\n".toList ++
      "Host: ".toList ++ hst ++ [':'] ++ intStr p ++ "\r\n".toList ++
      "Proxy-Authorization: ".toList ++ v, ?_⟩
    simp [buildRequest, terminator, List.append_assoc]
  · refine ⟨"CONNECT ".toList ++ hst ++ [':'] ++ intStr p ++ " HTTP/1.1\r\n".toList ++
      "Host: ".toList ++ hst ++ [':'] ++ intStr p, ?_⟩
    simp [buildRequest, terminator, List.append_assoc]

/-- Counterexample to C4 as stated: a destination host embedding a CRLF and a
Proxy-Authorization line makes the request formatted without any configured
auth value contain a Proxy-Authorization line (header injection), and the
request is small enough to pass the size check. -/
theorem c4_counterexample :
    authLinePat <:+: buildRequest none "e\r\nProxy-Authorization: x".toList 1 ∧
    (buildRequest none "e\r\nProxy-Authorization: x".toList 1).length <
      requestSize := by decide

/-- Witness for the amended C4 at the spec's concrete auth value. -/
theorem c4_witness :
    ('\r' ∉ "example.com".toList) ∧
    (("Proxy-Authorization: ".toList ++ "Basic dXNlcjpwYXNz".toList ++
        "\r\n".toList) <:+:
      buildRequest (mosquitto_proxy_set ⟨none, 0, none⟩ (some "proxy".toList) 3128
        (some "Basic dXNlcjpwYXNz".toList) true true).2.auth_header
        "example.com".toList 8883) ∧
    (terminator <:+ buildRequest none "example.com".toList 8883) ∧
    ¬ authLinePat <:+: buildRequest none "example.com".toList 8883 :=
  ⟨by decide,
   (c4_request_format "example.com".toList 8883 ⟨none, 0, none⟩ "proxy".toList 3128
     "Basic dXNlcjpwYXNz".toList (by decide) (by decide)).2.1,
   (c4_request_format "example.com".toList 8883 ⟨none, 0, none⟩ "proxy".toList 3128
     "Basic dXNlcjpwYXNz".toList (by decide) (by decide)).2.2.2.2.1,
   (c4_request_format "example.com".toList 8883 ⟨none, 0, none⟩ "proxy".toList 3128
     "Basic dXNlcjpwYXNz".toList (by decide) (by decide)).2.2.2.2.2 (by decide)⟩

end MosqProxy
